import Mathlib

/-!
Shallow embedding of the physics/simulation core of the `grappling_hook`
repository (`src/game_state.rs`), together with proofs about it.

Modelling conventions:
* `f64` values are embedded as `ℚ`; the claims under study are about the
  algorithmic structure of the code, not about rounding.
* `cgmath::Point2<f64>` and `cgmath::Vector2<f64>` both become `Vec2`.
* `StableVec<RefCell<Object>>` becomes `List (Option Object)`; a slot holds
  `none` when vacant.  `get` becomes `objGet`, in-place mutation becomes
  `setObj`.
* `HashMap` fields (`touching`, `key_states`) become association lists with
  unique keys; `HashMap::insert` (replace the value of an existing key, else
  add an entry) becomes `mapInsert`.  Rust leaves the iteration order of a
  `HashMap` unspecified; the association list fixes one order.
* Code that can panic in Rust (indexing a vacant `StableVec` slot, a `RefCell`
  borrow conflict, `unreachable!()`) is embedded in `Option`, with `none`
  standing for the panic.
-/

attribute [local semireducible] Rat.add Rat.mul Rat.sub Rat.inv

/-- Two-dimensional vector over `ℚ`, standing for both `cgmath::Point2<f64>`
and `cgmath::Vector2<f64>`. -/
structure Vec2 where
  x : ℚ
  y : ℚ
deriving DecidableEq, Repr

instance : Add Vec2 := ⟨fun a b => ⟨a.x + b.x, a.y + b.y⟩⟩

instance : Sub Vec2 := ⟨fun a b => ⟨a.x - b.x, a.y - b.y⟩⟩

instance : Neg Vec2 := ⟨fun a => ⟨-a.x, -a.y⟩⟩

instance : HMul Vec2 ℚ Vec2 := ⟨fun a q => ⟨a.x * q, a.y * q⟩⟩

instance : HDiv Vec2 ℚ Vec2 := ⟨fun a q => ⟨a.x / q, a.y / q⟩⟩

/-- The `Direction` enum of `game_state.rs`. -/
inductive Direction where
  | left
  | right
  | up
  | down
deriving DecidableEq, Repr

/-- `Direction::invert`. -/
def Direction.invert : Direction → Direction
  | .left => .right
  | .right => .left
  | .up => .down
  | .down => .up

/-- `Direction::from_vector`: classify a vector by dominant axis and sign. -/
def Direction.from_vector (v : Vec2) : Direction :=
  if |v.x| > |v.y| then
    if v.x > 0 then .right else .left
  else if v.y > 0 then .up
  else .down

/-- `winit::event::ElementState`. -/
inductive ElementState where
  | pressed
  | released
deriving DecidableEq, Repr

/-- The `Event` enum: the only input primitive. -/
inductive Event where
  | keyboard (button : Direction) (state : ElementState)
deriving DecidableEq, Repr

/-- The `ObjectType` enum: tagged body variants. -/
inductive ObjectType where
  | static
  | movable (velocity : Vec2) (mass : ℚ)
  | treadmill (fake_velocity : Vec2)
deriving DecidableEq, Repr

/-- `HashMap::insert` on an association list: replace the value stored under
an existing key, otherwise add a new entry.  (The entry order of a Rust
`HashMap` is unspecified; this fixes one.) -/
def mapInsert {α β : Type} [DecidableEq α] (k : α) (v : β) :
    List (α × β) → List (α × β)
  | [] => [(k, v)]
  | p :: rest => if p.1 = k then (k, v) :: rest else p :: mapInsert k v rest

/-- `HashMap::get` on an association list. -/
def mapLookup {α β : Type} [DecidableEq α] (k : α) : List (α × β) → Option β
  | [] => none
  | p :: rest => if p.1 = k then some p.2 else mapLookup k rest

/-- The `Object` struct. -/
structure Object where
  ty : ObjectType
  pos : Vec2
  size : Vec2
  surface_friction : ℚ
  touching : List (Nat × Direction)
deriving DecidableEq, Repr

/-- `Object::reset_velocity_components`: zero the requested velocity
components, only for `Movable`. -/
def Object.reset_velocity_components (o : Object) (xy : Bool × Bool) : Object :=
  match o.ty with
  | .movable v m =>
      { o with ty := .movable ⟨if xy.1 then 0 else v.x, if xy.2 then 0 else v.y⟩ m }
  | _ => o

/-- `Object::apply_push`: add to velocity, only for `Movable`. -/
def Object.apply_push (o : Object) (push : Vec2) : Object :=
  match o.ty with
  | .movable v m => { o with ty := .movable (v + push) m }
  | _ => o

/-- `Object::get_velocity`: `Static` reports zero, `Movable` its velocity,
`Treadmill` its fake velocity. -/
def Object.get_velocity (o : Object) : Vec2 :=
  match o.ty with
  | .static => ⟨0, 0⟩
  | .movable v _ => v
  | .treadmill fv => fv

/-- `Object::can_be_pushed`: `Some(mass)` for `Movable`, `None` otherwise. -/
def Object.can_be_pushed (o : Object) : Option ℚ :=
  match o.ty with
  | .static => none
  | .movable _ m => some m
  | .treadmill _ => none

/-- The half-open overlap test guarding `check_collision` (its `if`
condition, verbatim). -/
def overlapping (pos1 size1 pos2 size2 : Vec2) : Bool :=
  decide (pos1.x < pos2.x + size2.x) && decide (pos1.x + size1.x > pos2.x) &&
  decide (pos1.y < pos2.y + size2.y) && decide (pos1.y + size1.y > pos2.y)

/-- The per-axis signed penetration of `check_collision`, factored over one
axis (the Rust code computes the box centers `pos + size / 2.0` and then
runs this formula once for x and once for y). -/
def rawOffset1 (a sa b sb : ℚ) : ℚ :=
  if a + sa / 2 > b + sb / 2 then b + sb - a
  else if a + sa / 2 < b + sb / 2 then b - (a + sa)
  else 0

/-- The signed x penetration computed by `check_collision`. -/
def rawOffsetX (pos1 size1 pos2 size2 : Vec2) : ℚ :=
  rawOffset1 pos1.x size1.x pos2.x size2.x

/-- The signed y penetration computed by `check_collision`. -/
def rawOffsetY (pos1 size1 pos2 size2 : Vec2) : ℚ :=
  rawOffset1 pos1.y size1.y pos2.y size2.y

/-- `check_collision`: axis-aligned box overlap test and MTV resolution. -/
def check_collision (pos1 size1 pos2 size2 : Vec2) : Option Vec2 :=
  if overlapping pos1 size1 pos2 size2 then
    let offset_x := rawOffsetX pos1 size1 pos2 size2
    let offset_y := rawOffsetY pos1 size1 pos2 size2
    if offset_x = 0 ∨ (|offset_x| > |offset_y| ∧ offset_y ≠ 0) then
      some ⟨0, offset_y⟩
    else
      some ⟨offset_x, 0⟩
  else
    none

/-- `StableVec::get`: `none` for a vacant or out-of-range slot. -/
def objGet (objs : List (Option Object)) (i : Nat) : Option Object :=
  objs.getD i none

/-- Write an object back into its slot (mutation through the `RefCell`). -/
def setObj (objs : List (Option Object)) (i : Nat) (o : Object) :
    List (Option Object) :=
  objs.set i (some o)

/-- `StableVec::indices`: the occupied slot indices, ascending. -/
def occupiedIndices (objs : List (Option Object)) : List Nat :=
  (List.range objs.length).filter (fun i => (objGet objs i).isSome)

/-- `itertools::tuple_combinations` on a list of indices: all pairs, first
component strictly earlier in the list. -/
def pairCombinations : List Nat → List (Nat × Nat)
  | [] => []
  | x :: xs => xs.map (fun y => (x, y)) ++ pairCombinations xs

/-- The `PlayerController` struct. -/
structure PlayerController where
  pending_events : List Event
  controlled_object : Nat
  key_states : List (Direction × ElementState)
  last_touch_velocity : Vec2
  top_speed : ℚ
  acceleration_speed : ℚ
deriving DecidableEq, Repr

/-- Drain the buffered keyboard events in arrival order: update the
press/release state map and record whether an `Up`-press occurred. -/
def drainEvents (events : List Event)
    (ks : List (Direction × ElementState)) (do_jump : Bool) :
    List (Direction × ElementState) × Bool :=
  match events with
  | [] => (ks, do_jump)
  | Event.keyboard b st :: rest =>
      drainEvents rest (mapInsert b st ks)
        (do_jump || (decide (b = Direction.up) && decide (st = ElementState.pressed)))

/-- The closure computing the friction-weighted average of the touched
entities' velocities.  Rust indexes `objects[*index]` (panics on a vacant
slot) and then `.borrow()`s it (panics when `index` is the controlled entity,
whose cell is mutably borrowed); both panics are `none` here.  A touched
entity with `surface_friction == 0.0` short-circuits and returns its own
velocity. -/
def avgLoop (objs : List (Option Object)) (controlled : Nat) :
    List (Nat × Direction) → ℚ → Vec2 → Option Vec2
  | [], weights, sum => some (sum / weights)
  | p :: rest, weights, sum =>
      match objGet objs p.1 with
      | none => none
      | some other =>
          if p.1 = controlled then none
          else
            let contribution := other.surface_friction
            if contribution = 0 then some other.get_velocity
            else
              let contribution := 1 / contribution
              avgLoop objs controlled rest (weights + contribution)
                (sum + other.get_velocity * contribution)

/-- The average touch velocity: the friction-weighted mean when touching
anything, the remembered value otherwise. -/
def averageTouchVelocity (objs : List (Option Object)) (controlled : Nat)
    (touching : List (Nat × Direction)) (last : Vec2) : Option Vec2 :=
  if !touching.isEmpty then avgLoop objs controlled touching 0 ⟨0, 0⟩
  else some last

/-- Rust `f64::signum` restricted to the rationals (`+0.0` maps to `1.0`). -/
def rsignum (q : ℚ) : ℚ := if q < 0 then -1 else 1

/-- The horizontal-control step of `PlayerController::update`: accelerate
toward the pressed direction capped relative to the surface velocity, or
drive toward the surface velocity when neither/both directions are held. -/
def horizontalControl (ks : List (Direction × ElementState)) (average : Vec2)
    (top_speed acceleration_speed dt : ℚ) (v : Vec2) : Vec2 :=
  let left_state := (mapLookup Direction.left ks).getD ElementState.released
  let right_state := (mapLookup Direction.right ks).getD ElementState.released
  if left_state ≠ right_state then
    if left_state = ElementState.pressed then
      let vx := v.x + -acceleration_speed * dt
      ⟨if vx < average.x - top_speed then average.x - top_speed else vx, v.y⟩
    else
      let vx := v.x + acceleration_speed * dt
      ⟨if vx > average.x + top_speed then average.x + top_speed else vx, v.y⟩
  else
    let target := average.x - v.x
    let difference := acceleration_speed * dt
    let difference := if difference > |target| then |target| else difference
    ⟨v.x + difference * rsignum target, v.y⟩

/-- The jump step: only with jump intent and a non-empty touching map; adds
`(0, 10)` plus a wall-kick bias from Left/Right contacts (Left checked
first). -/
def jumpStep (do_jump : Bool) (touching : List (Nat × Direction))
    (sides : List Direction) (v : Vec2) : Vec2 :=
  if do_jump && !touching.isEmpty then
    let voff : Vec2 := ⟨0, 10⟩
    let voff :=
      if sides.contains Direction.left then ⟨voff.x + 10, voff.y⟩
      else if sides.contains Direction.right then ⟨voff.x - 10, voff.y⟩
      else voff
    v + voff
  else v

/-- The grounded-bleed step: `velocity.y += 15.0 * dt` while touching
something on the Down side. -/
def downStep (sides : List Direction) (dt : ℚ) (v : Vec2) : Vec2 :=
  if sides.contains Direction.down then ⟨v.x, v.y + 15 * dt⟩ else v

/-- `PlayerController::update`.  `none` models a panic inside the
average-touch-velocity loop; every other path is total.  The `touching_sides`
`HashSet` becomes the list of contact directions (only membership is ever
queried). -/
def PlayerController.update (objs : List (Option Object)) (dt : ℚ)
    (c : PlayerController) :
    Option (PlayerController × List (Option Object)) :=
  let kd := drainEvents c.pending_events c.key_states false
  let c1 : PlayerController := { c with pending_events := [], key_states := kd.1 }
  match objGet objs c.controlled_object with
  | none => some (c1, objs)
  | some obj =>
      match obj.ty with
      | ObjectType.movable v mass =>
          match averageTouchVelocity objs c.controlled_object obj.touching
              c.last_touch_velocity with
          | none => none
          | some average =>
              let c2 : PlayerController := { c1 with last_touch_velocity := average }
              let sides := obj.touching.map Prod.snd
              let v1 := horizontalControl kd.1 average c.top_speed
                c.acceleration_speed dt v
              let v2 := jumpStep kd.2 obj.touching sides v1
              let v3 := downStep sides dt v2
              some (c2, setObj objs c.controlled_object
                { obj with ty := ObjectType.movable v3 mass })
      | _ => some (c1, objs)

/-- The `GameState` struct.  The `Controller` enum has a single
`PlayerController` variant whose `update` merely dispatches, so controllers
are stored unwrapped. -/
structure GameState where
  controllers : List PlayerController
  objects : List (Option Object)
  view_object : Nat
deriving DecidableEq, Repr

/-- `GameState::new`: one player controller bound to entity 0, the initial
fixed scene (player, floor platform, wall, treadmill). -/
def GameState.new : GameState where
  controllers :=
    [{ pending_events := []
       controlled_object := 0
       key_states := []
       last_touch_velocity := ⟨0, 0⟩
       top_speed := 10
       acceleration_speed := 60 }]
  objects :=
    [some { pos := ⟨-(1/2), 1/2⟩, size := ⟨1, 1⟩
            ty := .movable ⟨0, 0⟩ 1
            surface_friction := 1, touching := [] },
     some { pos := ⟨-25, -25⟩, size := ⟨50, 15/2⟩
            ty := .static
            surface_friction := 1, touching := [] },
     some { pos := ⟨35/2, -25⟩, size := ⟨15/2, 50⟩
            ty := .static
            surface_friction := 1, touching := [] },
     some { pos := ⟨-15, -39/2⟩, size := ⟨10, 4⟩
            ty := .treadmill ⟨-4, 0⟩
            surface_friction := 1/2, touching := [] }]
  view_object := 0

/-- `GameState::submit_player_event`: broadcast the event onto every player
controller's pending queue. -/
def GameState.submit_player_event (s : GameState) (e : Event) : GameState :=
  { s with controllers :=
      s.controllers.map (fun c => { c with pending_events := c.pending_events ++ [e] }) }

/-- Run every controller's update in order against the entity collection. -/
def runControllersAux (dt : ℚ) :
    List PlayerController → List (Option Object) →
    Option (List PlayerController × List (Option Object))
  | [], objs => some ([], objs)
  | c :: cs, objs =>
      match c.update objs dt with
      | none => none
      | some (c', objs') =>
          match runControllersAux dt cs objs' with
          | none => none
          | some (cs', objs'') => some (c' :: cs', objs'')

/-- The gravity/velocity integration applied to one object: only `Movable`
entities accelerate and move. -/
def integrateObj (dt : ℚ) (o : Object) : Object :=
  match o.ty with
  | .movable v m =>
      let v2 := v - (⟨0, 15⟩ : Vec2) * dt
      { o with ty := .movable v2 m, pos := o.pos + v2 * dt }
  | _ => o

/-- The integration pass of `GameState::update`. -/
def integrate (dt : ℚ) (objs : List (Option Object)) : List (Option Object) :=
  objs.map (Option.map (integrateObj dt))

/-- The inflation margin `CHECK_SIZE` of `check_whats_still_touching`. -/
def checkSize : ℚ := 1 / 100

/-- One candidate re-test of the contact refresh: look up the other entity,
inflate its box by `checkSize` on each side, and re-run the collision
primitive against the refreshing entity's box (`pos`/`size` of the entity
being refreshed). -/
def refreshStep (objs : List (Option Object)) (pos size : Vec2) (k : Nat) :
    Option Direction :=
  match objGet objs k with
  | none => none
  | some other =>
      let effective_pos : Vec2 := ⟨other.pos.x - checkSize, other.pos.y - checkSize⟩
      let effective_size : Vec2 := ⟨other.size.x + checkSize * 2, other.size.y + checkSize * 2⟩
      match check_collision pos size effective_pos effective_size with
      | some offset => some (Direction.from_vector offset).invert
      | none => none

/-- The loop body of the contact refresh for one entity: walk the old
(cloned) `touching` map, skip a self-entry, drop entries whose handle is
vacant or whose inflated re-test fails, and re-insert the rest with a
re-derived direction into the cleared map `acc`. -/
def refreshFold (objs : List (Option Object)) (i : Nat) (pos size : Vec2)
    (acc : List (Nat × Direction)) :
    List (Nat × Direction) → List (Nat × Direction)
  | [] => acc
  | p :: rest =>
      if i = p.1 then refreshFold objs i pos size acc rest
      else
        match refreshStep objs pos size p.1 with
        | some d => refreshFold objs i pos size (mapInsert p.1 d acc) rest
        | none => refreshFold objs i pos size acc rest

/-- Refresh the `touching` map of the entity in slot `i` (no-op on a vacant
slot). -/
def refreshOne (objs : List (Option Object)) (i : Nat) : List (Option Object) :=
  match objGet objs i with
  | none => objs
  | some o => setObj objs i { o with touching := refreshFold objs i o.pos o.size [] o.touching }

/-- Walk the slots in ascending order, refreshing each entity in turn
against the current state (as the Rust `for` loop over `&self.objects`
does). -/
def refreshIndices : List Nat → List (Option Object) → List (Option Object)
  | [], objs => objs
  | i :: rest, objs => refreshIndices rest (refreshOne objs i)

/-- `GameState::check_whats_still_touching`. -/
def check_whats_still_touching (objs : List (Option Object)) : List (Option Object) :=
  refreshIndices (List.range objs.length) objs

/-- The relative-velocity correction of `GameState::handle_collision`,
computed from the post-reset objects: carried on the x component when the
MTV's x component is zero, on the y component when the MTV's y component is
zero, divided by the combined friction `friction1 * friction2`. -/
def velocityOffset (offset : Vec2) (o1 o2 : Object) : Vec2 :=
  let total := o1.surface_friction * o2.surface_friction
  if offset.x = 0 then
    ⟨(o1.get_velocity.x - o2.get_velocity.x) / total, 0⟩
  else if offset.y = 0 then
    ⟨0, (o1.get_velocity.y - o2.get_velocity.y) / total⟩
  else
    ⟨0, 0⟩

/-- `GameState::handle_collision` on the pair of slots `(i, j)`.  `none`
models the `unreachable!()` panic of the neither-pushable response branch;
all genuinely reachable paths are `some`. -/
def handle_collision (objs : List (Option Object)) (i j : Nat) :
    Option (List (Option Object)) :=
  if i = j then some objs
  else
    match objGet objs i, objGet objs j with
    | some o1, some o2 =>
        if o1.can_be_pushed.isSome || o2.can_be_pushed.isSome then
          match check_collision o1.pos o1.size o2.pos o2.size with
          | some offset =>
              let direction := Direction.from_vector offset
              let o1a := { o1 with touching := mapInsert j direction.invert o1.touching }
              let o2a := { o2 with touching := mapInsert i direction o2.touching }
              let o1b := o1a.reset_velocity_components (decide (offset.x ≠ 0), decide (offset.y ≠ 0))
              let o2b := o2a.reset_velocity_components (decide (offset.x ≠ 0), decide (offset.y ≠ 0))
              let voff := velocityOffset offset o1b o2b
              match o1b.can_be_pushed, o2b.can_be_pushed with
              | some mass1, some mass2 =>
                  let ratio := mass1 / (mass1 + mass2)
                  let offset1 := offset * ratio
                  let o1c := { o1b with pos := o1b.pos + offset1 }
                  let o2c := { o2b with pos := o2b.pos - (offset - offset1) }
                  some (setObj (setObj objs i (o1c.apply_push (-voff * ratio)))
                    j (o2c.apply_push (voff * (1 - ratio))))
              | some _, none =>
                  some (setObj (setObj objs i
                    (({ o1b with pos := o1b.pos + offset }).apply_push (-voff))) j o2b)
              | none, some _ =>
                  some (setObj (setObj objs i o1b)
                    j (({ o2b with pos := o2b.pos - offset }).apply_push voff))
              | none, none => none
          | none => some objs
        else some objs
    | _, _ => some objs

/-- Thread `handle_collision` over a list of slot pairs. -/
def collisionFold : List (Nat × Nat) → List (Option Object) →
    Option (List (Option Object))
  | [], objs => some objs
  | p :: rest, objs =>
      match handle_collision objs p.1 p.2 with
      | none => none
      | some objs' => collisionFold rest objs'

/-- `GameState::collision_detection`: every unordered pair of occupied slots,
in `tuple_combinations` order. -/
def collision_detection (objs : List (Option Object)) :
    Option (List (Option Object)) :=
  collisionFold (pairCombinations (occupiedIndices objs)) objs

/-- `GameState::update`: controllers, then gravity/velocity integration,
then the contact refresh, then collision detection/resolution — in that
order. -/
def GameState.update (dt : ℚ) (s : GameState) : Option GameState :=
  match runControllersAux dt s.controllers s.objects with
  | none => none
  | some (cs', objs1) =>
      let objs2 := integrate dt objs1
      let objs3 := check_whats_still_touching objs2
      match collision_detection objs3 with
      | none => none
      | some objs4 => some { s with controllers := cs', objects := objs4 }

/-- The tick pipeline in the order the spec's resolver/refresh sections
claim (C2): collision detection/resolution first, the contact refresh
afterwards, so that the final `touching` maps would be re-derived from
post-correction geometry.  Written for comparison with `GameState.update`. -/
def claimedOrderUpdate (dt : ℚ) (s : GameState) : Option GameState :=
  match runControllersAux dt s.controllers s.objects with
  | none => none
  | some (cs', objs1) =>
      let objs2 := integrate dt objs1
      match collision_detection objs2 with
      | none => none
      | some objs3 => some { s with controllers := cs', objects := check_whats_still_touching objs3 }

/-- The actual tick order of the code, written out as a pipeline (contact
refresh strictly before the collision pass), for comparison with
`GameState.update`. -/
def refreshThenResolveUpdate (dt : ℚ) (s : GameState) : Option GameState :=
  (runControllersAux dt s.controllers s.objects).bind (fun p =>
    (collision_detection (check_whats_still_touching (integrate dt p.2))).map
      (fun objs4 => { s with controllers := p.1, objects := objs4 }))

/-- One call of the public mutating API. -/
inductive Call where
  | upd (dt : ℚ)
  | submit (e : Event)
deriving DecidableEq, Repr

/-- Apply one public API call. -/
def applyCall (s : GameState) : Call → Option GameState
  | .upd dt => s.update dt
  | .submit e => some (s.submit_player_event e)

/-- Run a sequence of public API calls from a given state. -/
def runCallsFrom (s : GameState) : List Call → Option GameState
  | [] => some s
  | c :: rest =>
      match applyCall s c with
      | none => none
      | some s' => runCallsFrom s' rest

/-- Run a sequence of public API calls from the initial state. -/
def runCalls (l : List Call) : Option GameState :=
  runCallsFrom GameState.new l

/-- No entity's `touching` map contains that entity's own handle. -/
def SelfFree (objs : List (Option Object)) : Prop :=
  ∀ i o, objGet objs i = some o → ∀ d, (i, d) ∉ o.touching

/-- Concrete scene for the C2 counterexample: entity 1 (movable) rests flush
against entity 0 (static) on its left, while deeply overlapping entity 2
(static), whose resolution pushes entity 1 away from entity 0 by half a
unit. -/
def c2State : GameState where
  controllers := []
  objects :=
    [some { ty := .static, pos := ⟨0, 0⟩, size := ⟨1, 1⟩
            surface_friction := 1, touching := [(1, .right)] },
     some { ty := .movable ⟨0, 0⟩ 1, pos := ⟨1, 0⟩, size := ⟨1, 1⟩
            surface_friction := 1, touching := [(0, .left)] },
     some { ty := .static, pos := ⟨1/2, 0⟩, size := ⟨1, 1⟩
            surface_friction := 1, touching := [] }]
  view_object := 0

/-- Concrete pair for the C3 counterexample: a movable box moving at
`(3, -1)` sunk `0.2` deep into a static box above it (MTV along y), the
static box with friction `2`. -/
def c3o1 : Object where
  ty := .movable ⟨3, -1⟩ 1
  pos := ⟨0, 0⟩
  size := ⟨1, 1⟩
  surface_friction := 1
  touching := []

/-- The static, friction-2 upper box of the C3 counterexample. -/
def c3o2 : Object where
  ty := .static
  pos := ⟨0, 4/5⟩
  size := ⟨1, 1⟩
  surface_friction := 2
  touching := []

/-- Concrete pair for the C4 witness: mass-1 and mass-3 movable boxes
overlapping by half a unit along x. -/
def c4objs : List (Option Object) :=
  [some { ty := .movable ⟨0, 0⟩ 1, pos := ⟨0, 0⟩, size := ⟨1, 1⟩
          surface_friction := 1, touching := [] },
   some { ty := .movable ⟨0, 0⟩ 3, pos := ⟨1/2, 0⟩, size := ⟨1, 1⟩
          surface_friction := 1, touching := [] }]

/-- The result of resolving the C4 witness pair. -/
def c4objsAfter : List (Option Object) :=
  (handle_collision c4objs 0 1).getD []

/-- Scene for the C6 witness: the controlled entity touches a friction-1
static entity and a friction-0 treadmill moving at `(4, 0)`. -/
def c6Objs : List (Option Object) :=
  [some { ty := .movable ⟨1, 2⟩ 1, pos := ⟨0, 0⟩, size := ⟨1, 1⟩
          surface_friction := 1, touching := [(1, .down), (2, .down)] },
   some { ty := .static, pos := ⟨0, -1⟩, size := ⟨1, 1⟩
          surface_friction := 1, touching := [] },
   some { ty := .treadmill ⟨4, 0⟩, pos := ⟨1, -1⟩, size := ⟨1, 1⟩
          surface_friction := 0, touching := [] }]

/-- Controller for the C6 witness. -/
def c6Ctrl : PlayerController where
  pending_events := []
  controlled_object := 0
  key_states := []
  last_touch_velocity := ⟨9, 9⟩
  top_speed := 10
  acceleration_speed := 60

/-- Scene for the C7 counterexample: the controlled entity's `touching` map
holds the stale handle 5, which no slot carries. -/
def c7Objs : List (Option Object) :=
  [some { ty := .movable ⟨0, 0⟩ 1, pos := ⟨0, 0⟩, size := ⟨1, 1⟩
          surface_friction := 1, touching := [(5, .down)] }]

/-- Controller for the C7 counterexample. -/
def c7Ctrl : PlayerController where
  pending_events := []
  controlled_object := 0
  key_states := []
  last_touch_velocity := ⟨0, 0⟩
  top_speed := 10
  acceleration_speed := 60

/-- World for the C7 counterexample. -/
def c7State : GameState where
  controllers := [c7Ctrl]
  objects := c7Objs
  view_object := 0

/-- World for the C8 witness: a single static platform and no controllers. -/
def c8State : GameState where
  controllers := []
  objects := [some { ty := .static, pos := ⟨2, 3⟩, size := ⟨4, 1⟩
                     surface_friction := 1, touching := [] }]
  view_object := 0

/-- The call sequence of the C10 witness: one tick from the initial scene. -/
def c10Calls : List Call := [.upd (1/60)]

/-- The state reached by the C10 witness call sequence. -/
def c10State : GameState :=
  (runCalls c10Calls).getD GameState.new

/-- The player entity of the C10 witness state. -/
def c10Player : Object :=
  (objGet c10State.objects 0).getD
    { ty := .static, pos := ⟨0, 0⟩, size := ⟨0, 0⟩, surface_friction := 1, touching := [] }

/-- The keys of an association list are pairwise distinct (always true of a
Rust `HashMap`). -/
def NodupKeys {α β : Type} (l : List (α × β)) : Prop :=
  (l.map Prod.fst).Nodup

/-- The geometric footprint of an object: its position and size. -/
def psOf (o : Object) : Vec2 × Vec2 :=
  (o.pos, o.size)

/-- Two entity collections agree on occupancy and on every entity's
position and size. -/
def PosSizeEq (objs1 objs2 : List (Option Object)) : Prop :=
  ∀ k, (objGet objs1 k).map psOf = (objGet objs2 k).map psOf

/-- The refreshed `touching` map of one entity. -/
def refreshTouch (objs : List (Option Object)) (i : Nat) (o : Object) :
    List (Nat × Direction) :=
  refreshFold objs i o.pos o.size [] o.touching

/-- The refreshed entity. -/
def refreshObj (objs : List (Option Object)) (i : Nat) (o : Object) : Object :=
  { o with touching := refreshTouch objs i o }

@[simp] theorem Vec2.add_x (a b : Vec2) : (a + b).x = a.x + b.x := rfl

@[simp] theorem Vec2.add_y (a b : Vec2) : (a + b).y = a.y + b.y := rfl

@[simp] theorem Vec2.sub_x (a b : Vec2) : (a - b).x = a.x - b.x := rfl

@[simp] theorem Vec2.sub_y (a b : Vec2) : (a - b).y = a.y - b.y := rfl

@[simp] theorem Vec2.neg_x (a : Vec2) : (-a).x = -a.x := rfl

@[simp] theorem Vec2.neg_y (a : Vec2) : (-a).y = -a.y := rfl

@[simp] theorem Vec2.smul_x (a : Vec2) (q : ℚ) : (a * q).x = a.x * q := rfl

@[simp] theorem Vec2.smul_y (a : Vec2) (q : ℚ) : (a * q).y = a.y * q := rfl

theorem Vec2.ext2 (a b : Vec2) (hx : a.x = b.x) (hy : a.y = b.y) : a = b := by
  cases a; cases b; simp_all

theorem getD_set_self {α : Type} (l : List α) (i : Nat) (a d : α)
    (h : i < l.length) : (l.set i a).getD i d = a := by
  induction l generalizing i with
  | nil => simp at h
  | cons hd tl ih =>
      cases i with
      | zero => simp
      | succ n => simpa using ih n (by simpa using h)

theorem getD_set_ne {α : Type} (l : List α) (i k : Nat) (a d : α)
    (h : k ≠ i) : (l.set i a).getD k d = l.getD k d := by
  induction l generalizing i k with
  | nil => simp
  | cons hd tl ih =>
      cases i with
      | zero =>
          cases k with
          | zero => exact absurd rfl h
          | succ n => simp
      | succ m =>
          cases k with
          | zero => simp
          | succ n => simpa using ih m n (fun hh => h (by rw [hh]))

theorem objGet_some_lt (objs : List (Option Object)) (i : Nat) (o : Object)
    (h : objGet objs i = some o) : i < objs.length := by
  by_contra hlt
  push_neg at hlt
  rw [objGet, List.getD_eq_default _ _ hlt] at h
  exact Option.noConfusion h

theorem objGet_set_self (objs : List (Option Object)) (i : Nat) (o : Object)
    (h : i < objs.length) : objGet (setObj objs i o) i = some o :=
  getD_set_self objs i (some o) none h

theorem objGet_set_ne (objs : List (Option Object)) (i k : Nat) (o : Object)
    (h : k ≠ i) : objGet (setObj objs i o) k = objGet objs k :=
  getD_set_ne objs i k (some o) none h

theorem setObj_length (objs : List (Option Object)) (i : Nat) (o : Object) :
    (setObj objs i o).length = objs.length := by
  simp [setObj]

theorem objGet_map (f : Object → Object) (objs : List (Option Object)) (k : Nat) :
    objGet (objs.map (Option.map f)) k = (objGet objs k).map f := by
  induction objs generalizing k with
  | nil => simp [objGet]
  | cons hd tl ih =>
      cases k with
      | zero => simp [objGet]
      | succ n => simpa [objGet] using ih n

theorem mapInsert_mem {α β : Type} [DecidableEq α] (k : α) (v : β)
    (l : List (α × β)) (q : α × β) (h : q ∈ mapInsert k v l) :
    q ∈ l ∨ q = (k, v) := by
  induction l with
  | nil => simpa [mapInsert] using h
  | cons p rest ih =>
      by_cases hp : p.1 = k
      · rw [mapInsert, if_pos hp] at h
        rcases List.mem_cons.mp h with h1 | h1
        · right; exact h1
        · left; exact List.mem_cons_of_mem _ h1
      · rw [mapInsert, if_neg hp] at h
        rcases List.mem_cons.mp h with h1 | h1
        · left; rw [h1]; exact List.mem_cons_self _ _
        · rcases ih h1 with h2 | h2
          · left; exact List.mem_cons_of_mem _ h2
          · right; exact h2

theorem mapInsert_of_not_mem {α β : Type} [DecidableEq α] (k : α) (v : β)
    (l : List (α × β)) (h : ∀ p ∈ l, p.1 ≠ k) :
    mapInsert k v l = l ++ [(k, v)] := by
  induction l with
  | nil => rfl
  | cons p rest ih =>
      rw [mapInsert, if_neg (h p (List.mem_cons_self _ _)), List.cons_append]
      rw [ih (fun q hq => h q (List.mem_cons_of_mem _ hq))]

theorem mapInsert_keys_sub {α β : Type} [DecidableEq α] (k : α) (v : β)
    (l : List (α × β)) (a : α) (h : a ∈ (mapInsert k v l).map Prod.fst) :
    a ∈ l.map Prod.fst ∨ a = k := by
  rcases List.mem_map.mp h with ⟨q, hq, rfl⟩
  rcases mapInsert_mem k v l q hq with h1 | h1
  · left; exact List.mem_map_of_mem _ h1
  · right; rw [h1]

theorem mapInsert_nodupKeys {α β : Type} [DecidableEq α] (k : α) (v : β)
    (l : List (α × β)) (h : NodupKeys l) : NodupKeys (mapInsert k v l) := by
  induction l with
  | nil => simp [mapInsert, NodupKeys]
  | cons p rest ih =>
      rw [NodupKeys, List.map_cons, List.nodup_cons] at h
      by_cases hp : p.1 = k
      · rw [NodupKeys, mapInsert, if_pos hp, List.map_cons, List.nodup_cons]
        exact ⟨by rw [← hp]; exact h.1, h.2⟩
      · rw [NodupKeys, mapInsert, if_neg hp, List.map_cons, List.nodup_cons]
        refine ⟨fun hmem => ?_, ih h.2⟩
        rcases mapInsert_keys_sub k v rest p.1 hmem with h1 | h1
        · exact h.1 h1
        · exact hp h1

theorem overlapping_iff (p1 s1 p2 s2 : Vec2) :
    overlapping p1 s1 p2 s2 = true ↔
      p1.x < p2.x + s2.x ∧ p1.x + s1.x > p2.x ∧
      p1.y < p2.y + s2.y ∧ p1.y + s1.y > p2.y := by
  simp [overlapping, and_assoc]

theorem rawOffset1_spec (a sa b sb : ℚ) (h1 : a < b + sb) (h2 : a + sa > b) :
    (a + sa / 2 = b + sb / 2 → rawOffset1 a sa b sb = 0) ∧
    (a + sa / 2 ≠ b + sb / 2 → rawOffset1 a sa b sb ≠ 0) ∧
    (rawOffset1 a sa b sb ≠ 0 →
      ¬(a + rawOffset1 a sa b sb < b + sb ∧ a + rawOffset1 a sa b sb + sa > b)) := by
  rcases lt_trichotomy (a + sa / 2) (b + sb / 2) with h | h | h
  · have hoff : rawOffset1 a sa b sb = b - (a + sa) := by
      rw [rawOffset1, if_neg (by linarith), if_pos h]
    refine ⟨fun he => absurd he (ne_of_lt h), fun _ => ?_, fun _ hsep => ?_⟩
    · rw [hoff]; intro h0; linarith
    · rw [hoff] at hsep; linarith [hsep.2]
  · have hoff : rawOffset1 a sa b sb = 0 := by
      rw [rawOffset1, if_neg (by linarith), if_neg (by linarith)]
    exact ⟨fun _ => hoff, fun hne => absurd h hne, fun h0 => absurd hoff h0⟩
  · have hoff : rawOffset1 a sa b sb = b + sb - a := by
      rw [rawOffset1, if_pos h]
    refine ⟨fun he => absurd he (ne_of_gt h), fun _ => ?_, fun _ hsep => ?_⟩
    · rw [hoff]; intro h0; linarith
    · rw [hoff] at hsep; linarith [hsep.1]

theorem check_collision_eq (p1 s1 p2 s2 : Vec2)
    (hov : overlapping p1 s1 p2 s2 = true) :
    check_collision p1 s1 p2 s2 =
      if rawOffsetX p1 s1 p2 s2 = 0 ∨
          (|rawOffsetX p1 s1 p2 s2| > |rawOffsetY p1 s1 p2 s2| ∧
            rawOffsetY p1 s1 p2 s2 ≠ 0) then
        some ⟨0, rawOffsetY p1 s1 p2 s2⟩
      else some ⟨rawOffsetX p1 s1 p2 s2, 0⟩ := by
  rw [check_collision, if_pos hov]

/-- C1 (amended): `check_collision` returns `none` exactly on the failed
half-open overlap test; on overlap it returns an offset with at most one
non-zero component, and whenever the two box centers do not coincide the
offset has exactly one non-zero component and translating box 1 by it
removes the overlap on that axis.  (The claim's unqualified "exactly one
non-zero component" fails when the centers coincide: see the
counterexample.) -/
theorem C1_collision_primitive (p1 s1 p2 s2 : Vec2) :
    (overlapping p1 s1 p2 s2 = false → check_collision p1 s1 p2 s2 = none) ∧
    (overlapping p1 s1 p2 s2 = true →
      ∃ v, check_collision p1 s1 p2 s2 = some v ∧ (v.x = 0 ∨ v.y = 0) ∧
        (¬(p1.x + s1.x / 2 = p2.x + s2.x / 2 ∧ p1.y + s1.y / 2 = p2.y + s2.y / 2) →
          (v.x = 0 ∧ v.y ≠ 0 ∧
            ¬(p1.y + v.y < p2.y + s2.y ∧ p1.y + v.y + s1.y > p2.y)) ∨
          (v.x ≠ 0 ∧ v.y = 0 ∧
            ¬(p1.x + v.x < p2.x + s2.x ∧ p1.x + v.x + s1.x > p2.x)))) := by
  constructor
  · intro hov
    rw [check_collision, if_neg (by simp [hov])]
  · intro hov
    obtain ⟨hx1, hx2, hy1, hy2⟩ := (overlapping_iff p1 s1 p2 s2).mp hov
    have hX := rawOffset1_spec p1.x s1.x p2.x s2.x hx1 hx2
    have hY := rawOffset1_spec p1.y s1.y p2.y s2.y hy1 hy2
    rw [check_collision_eq p1 s1 p2 s2 hov]
    simp only [rawOffsetX, rawOffsetY]
    by_cases hbr : rawOffset1 p1.x s1.x p2.x s2.x = 0 ∨
        (|rawOffset1 p1.x s1.x p2.x s2.x| > |rawOffset1 p1.y s1.y p2.y s2.y| ∧
          rawOffset1 p1.y s1.y p2.y s2.y ≠ 0)
    · rw [if_pos hbr]
      refine ⟨_, rfl, Or.inl rfl, fun hnc => Or.inl ⟨rfl, ?_, ?_⟩⟩
      · rcases hbr with hx0 | ⟨_, hy0⟩
        · have hcx : p1.x + s1.x / 2 = p2.x + s2.x / 2 := by
            by_contra hne
            exact hX.2.1 hne hx0
          have hcy : p1.y + s1.y / 2 ≠ p2.y + s2.y / 2 := fun hcy =>
            hnc ⟨hcx, hcy⟩
          exact hY.2.1 hcy
        · exact hy0
      · rcases hbr with hx0 | ⟨_, hy0⟩
        · have hcx : p1.x + s1.x / 2 = p2.x + s2.x / 2 := by
            by_contra hne
            exact hX.2.1 hne hx0
          have hcy : p1.y + s1.y / 2 ≠ p2.y + s2.y / 2 := fun hcy =>
            hnc ⟨hcx, hcy⟩
          exact hY.2.2 (hY.2.1 hcy)
        · exact hY.2.2 hy0
    · rw [if_neg hbr]
      push_neg at hbr
      exact ⟨_, rfl, Or.inr rfl, fun _ =>
        Or.inr ⟨hbr.1, rfl, hX.2.2 hbr.1⟩⟩

theorem C1_witness :
    check_collision ⟨3, 0⟩ ⟨1, 1⟩ ⟨0, 0⟩ ⟨1, 1⟩ = none :=
  (C1_collision_primitive ⟨3, 0⟩ ⟨1, 1⟩ ⟨0, 0⟩ ⟨1, 1⟩).1 (by decide)

/-- C1 counterexample: two identical unit boxes overlap under the half-open
test, yet `check_collision` returns the zero offset — not an offset with
exactly one non-zero component, and translating by it separates nothing. -/
theorem C1_counterexample :
    overlapping ⟨0, 0⟩ ⟨1, 1⟩ ⟨0, 0⟩ ⟨1, 1⟩ = true ∧
    check_collision ⟨0, 0⟩ ⟨1, 1⟩ ⟨0, 0⟩ ⟨1, 1⟩ = some ⟨0, 0⟩ := by
  exact ⟨by decide, by decide⟩

/-- C5: the axis tie-break of `check_collision`.  A zero x penetration
forces resolution on the y axis unconditionally (in particular even when
the y penetration is larger in magnitude); otherwise x is zeroed exactly
when its magnitude strictly exceeds y's and y is non-zero, and y is zeroed
in every remaining case. -/
theorem C5_tiebreak (p1 s1 p2 s2 : Vec2)
    (hov : overlapping p1 s1 p2 s2 = true) :
    (rawOffsetX p1 s1 p2 s2 = 0 →
      check_collision p1 s1 p2 s2 = some ⟨0, rawOffsetY p1 s1 p2 s2⟩) ∧
    (rawOffsetX p1 s1 p2 s2 ≠ 0 →
      |rawOffsetX p1 s1 p2 s2| > |rawOffsetY p1 s1 p2 s2| →
      rawOffsetY p1 s1 p2 s2 ≠ 0 →
      check_collision p1 s1 p2 s2 = some ⟨0, rawOffsetY p1 s1 p2 s2⟩) ∧
    (rawOffsetX p1 s1 p2 s2 ≠ 0 →
      ¬(|rawOffsetX p1 s1 p2 s2| > |rawOffsetY p1 s1 p2 s2| ∧
        rawOffsetY p1 s1 p2 s2 ≠ 0) →
      check_collision p1 s1 p2 s2 = some ⟨rawOffsetX p1 s1 p2 s2, 0⟩) := by
  rw [check_collision_eq p1 s1 p2 s2 hov]
  refine ⟨fun h0 => ?_, fun _ hmag hy => ?_, fun hx hrest => ?_⟩
  · rw [if_pos (Or.inl h0)]
  · rw [if_pos (Or.inr ⟨hmag, hy⟩)]
  · rw [if_neg ?_]
    rintro (h | h)
    · exact hx h
    · exact hrest h

theorem C5_witness :
    check_collision ⟨0, 0⟩ ⟨1, 1⟩ ⟨0, 1/2⟩ ⟨1, 1⟩ = some ⟨0, -(1/2)⟩ := by
  have h := (C5_tiebreak ⟨0, 0⟩ ⟨1, 1⟩ ⟨0, 1/2⟩ ⟨1, 1⟩ (by decide)).1 (by decide)
  rw [h]
  decide

@[simp] theorem reset_pos (o : Object) (xy : Bool × Bool) :
    (o.reset_velocity_components xy).pos = o.pos := by
  rcases o with ⟨ty, pos, size, f, t⟩
  cases ty <;> simp [Object.reset_velocity_components]

@[simp] theorem reset_size (o : Object) (xy : Bool × Bool) :
    (o.reset_velocity_components xy).size = o.size := by
  rcases o with ⟨ty, pos, size, f, t⟩
  cases ty <;> simp [Object.reset_velocity_components]

@[simp] theorem reset_touching (o : Object) (xy : Bool × Bool) :
    (o.reset_velocity_components xy).touching = o.touching := by
  rcases o with ⟨ty, pos, size, f, t⟩
  cases ty <;> simp [Object.reset_velocity_components]

@[simp] theorem reset_surface_friction (o : Object) (xy : Bool × Bool) :
    (o.reset_velocity_components xy).surface_friction = o.surface_friction := by
  rcases o with ⟨ty, pos, size, f, t⟩
  cases ty <;> simp [Object.reset_velocity_components]

@[simp] theorem reset_can_be_pushed (o : Object) (xy : Bool × Bool) :
    (o.reset_velocity_components xy).can_be_pushed = o.can_be_pushed := by
  rcases o with ⟨ty, pos, size, f, t⟩
  cases ty <;> simp [Object.reset_velocity_components, Object.can_be_pushed]

@[simp] theorem apply_push_pos (o : Object) (p : Vec2) :
    (o.apply_push p).pos = o.pos := by
  rcases o with ⟨ty, pos, size, f, t⟩
  cases ty <;> simp [Object.apply_push]

@[simp] theorem apply_push_size (o : Object) (p : Vec2) :
    (o.apply_push p).size = o.size := by
  rcases o with ⟨ty, pos, size, f, t⟩
  cases ty <;> simp [Object.apply_push]

@[simp] theorem apply_push_touching (o : Object) (p : Vec2) :
    (o.apply_push p).touching = o.touching := by
  rcases o with ⟨ty, pos, size, f, t⟩
  cases ty <;> simp [Object.apply_push]

@[simp] theorem apply_push_surface_friction (o : Object) (p : Vec2) :
    (o.apply_push p).surface_friction = o.surface_friction := by
  rcases o with ⟨ty, pos, size, f, t⟩
  cases ty <;> simp [Object.apply_push]

@[simp] theorem apply_push_can_be_pushed (o : Object) (p : Vec2) :
    (o.apply_push p).can_be_pushed = o.can_be_pushed := by
  rcases o with ⟨ty, pos, size, f, t⟩
  cases ty <;> simp [Object.apply_push, Object.can_be_pushed]

theorem non_movable_reset (o : Object) (xy : Bool × Bool)
    (h : o.can_be_pushed = none) : o.reset_velocity_components xy = o := by
  rcases o with ⟨ty, pos, size, f, t⟩
  cases ty <;> simp_all [Object.reset_velocity_components, Object.can_be_pushed]

theorem non_movable_apply_push (o : Object) (p : Vec2)
    (h : o.can_be_pushed = none) : o.apply_push p = o := by
  rcases o with ⟨ty, pos, size, f, t⟩
  cases ty <;> simp_all [Object.apply_push, Object.can_be_pushed]

theorem non_movable_integrate (dt : ℚ) (o : Object)
    (h : o.can_be_pushed = none) : integrateObj dt o = o := by
  rcases o with ⟨ty, pos, size, f, t⟩
  cases ty <;> simp_all [integrateObj, Object.can_be_pushed]

/-- C2 (amended): within `GameState::update` the contact refresh runs
BEFORE the pairwise collision detection/resolution pass, not after it; the
touching maps entering the next tick therefore consist of the refreshed
pre-correction contacts plus the contacts the resolver inserts from
pre-correction geometry. -/
theorem C2_refresh_before_resolve (dt : ℚ) (s : GameState) :
    GameState.update dt s = refreshThenResolveUpdate dt s := by
  rw [GameState.update, refreshThenResolveUpdate]
  cases runControllersAux dt s.controllers s.objects with
  | none => rfl
  | some p =>
      cases p with
      | mk cs' objs1 =>
          cases h : collision_detection (check_whats_still_touching (integrate dt objs1)) with
          | none => simp [h]
          | some objs4 => simp [h]

/-- C2 counterexample: on `c2State` (entity 1 flush against entity 0 and
deeply overlapping entity 2), the actual tick keeps entity 1's stale contact
with entity 0 — the resolver moved entity 1 half a unit away from entity 0
AFTER the refresh ran — while the claimed resolve-then-refresh order would
have dropped it.  The two orders produce different touching maps, so the
refresh does not run after the collision pass. -/
theorem C2_counterexample :
    (GameState.update 0 c2State).map
        (fun s => (objGet s.objects 1).map Object.touching)
      = some (some [(0, Direction.left), (2, Direction.left)]) ∧
    (claimedOrderUpdate 0 c2State).map
        (fun s => (objGet s.objects 1).map Object.touching)
      = some (some [(2, Direction.left)]) := by
  exact ⟨by decide, by decide⟩

/-- C3 (amended): the relative-velocity correction of the resolver is
carried on the axis ORTHOGONAL to the resolved axis, not on the resolved
axis: when the MTV is along y (`offset.x = 0`) the correction is the
x-velocity difference divided by `friction1 * friction2`, placed in the x
component (and 0 in y); symmetrically when the MTV is along x; and it is
zero when both MTV components are non-zero (unreachable for MTVs produced
by `check_collision`). -/
theorem C3_velocity_correction_orthogonal (offset : Vec2) (o1 o2 : Object) :
    (offset.x = 0 →
      velocityOffset offset o1 o2 =
        ⟨(o1.get_velocity.x - o2.get_velocity.x) /
          (o1.surface_friction * o2.surface_friction), 0⟩) ∧
    (offset.x ≠ 0 → offset.y = 0 →
      velocityOffset offset o1 o2 =
        ⟨0, (o1.get_velocity.y - o2.get_velocity.y) /
          (o1.surface_friction * o2.surface_friction)⟩) ∧
    (offset.x ≠ 0 → offset.y ≠ 0 → velocityOffset offset o1 o2 = ⟨0, 0⟩) := by
  refine ⟨fun hx => ?_, fun hx hy => ?_, fun hx hy => ?_⟩
  · simp only [velocityOffset, if_pos hx]
  · simp only [velocityOffset, if_neg hx, if_pos hy]
  · simp only [velocityOffset, if_neg hx, if_neg hy]

theorem C3_witness :
    velocityOffset ⟨0, -(1/5)⟩ c3o1 c3o2 = ⟨3/2, 0⟩ := by
  have h := (C3_velocity_correction_orthogonal ⟨0, -(1/5)⟩ c3o1 c3o2).1 rfl
  rw [h]
  decide

/-- C3 counterexample: the pair `(c3o1, c3o2)` reaches the response step
with MTV `(0, -1/5)` — the resolved axis is y — yet the correction applied
to entity 0's velocity is on the x axis: its x velocity drops from 3 to
`3/2 = 3 / (friction1 * friction2)`, while the claim (correction non-zero
only on the resolved axis) would have left it at 3. -/
theorem C3_counterexample :
    check_collision c3o1.pos c3o1.size c3o2.pos c3o2.size = some ⟨0, -(1/5)⟩ ∧
    (handle_collision [some c3o1, some c3o2] 0 1).bind
        (fun l => (objGet l 0).map Object.get_velocity) = some ⟨3/2, 0⟩ ∧
    c3o1.get_velocity.x = 3 ∧ ((3:ℚ)/2) ≠ 3 := by
  refine ⟨by decide, by decide, by decide, by decide⟩

theorem objGet_double_set (objs : List (Option Object)) (i j : Nat) (X Y : Object)
    (hij : i ≠ j) (hi : i < objs.length) (hj : j < objs.length)
    (P Q : Object → Prop) (hP : P X) (hQ : Q Y) :
    ∃ o1' o2', objGet (setObj (setObj objs i X) j Y) i = some o1' ∧
      objGet (setObj (setObj objs i X) j Y) j = some o2' ∧ P o1' ∧ Q o2' := by
  refine ⟨X, Y, ?_, ?_, hP, hQ⟩
  · rw [objGet_set_ne _ j i _ hij]
    exact objGet_set_self _ _ _ hi
  · refine objGet_set_self _ _ _ ?_
    rw [setObj_length]
    exact hj

/-- C4: when a mass-1 movable entity (entity 1) and a mass-3 movable entity
(entity 2) collide, the resolver splits the positional correction by the
mass ratio `ratio = m1/(m1+m2) = 1/4` applied to entity 1's share of the
offset, entity 2 moving the remainder `offset * 3/4` in the opposite
direction — a 3:1 split with the larger share on the mass-3 body. -/
theorem C4_mass_split (objs : List (Option Object)) (i j : Nat)
    (o1 o2 : Object) (v1 v2 offset : Vec2) (objs' : List (Option Object))
    (hij : i ≠ j)
    (h1 : objGet objs i = some o1) (h2 : objGet objs j = some o2)
    (hm1 : o1.ty = ObjectType.movable v1 1) (hm2 : o2.ty = ObjectType.movable v2 3)
    (hc : check_collision o1.pos o1.size o2.pos o2.size = some offset)
    (hres : handle_collision objs i j = some objs') :
    ∃ o1' o2', objGet objs' i = some o1' ∧ objGet objs' j = some o2' ∧
      o1'.pos = o1.pos + offset * ((1:ℚ)/4) ∧
      o2'.pos = o2.pos - offset * ((3:ℚ)/4) := by
  have hp1 : o1.can_be_pushed = some 1 := by simp [Object.can_be_pushed, hm1]
  have hp2 : o2.can_be_pushed = some 3 := by simp [Object.can_be_pushed, hm2]
  have hlen_i : i < objs.length := objGet_some_lt _ _ _ h1
  have hlen_j : j < objs.length := objGet_some_lt _ _ _ h2
  rw [handle_collision, if_neg hij, h1, h2] at hres
  simp only [hc, hp1, hp2, Object.can_be_pushed, Object.reset_velocity_components,
    Object.apply_push, hm1, hm2, Option.isSome_some, Bool.true_or, if_true,
    Option.some.injEq] at hres
  subst hres
  have h14 : ((1:ℚ)/(1+3)) = 1/4 := by norm_num
  have hv : offset - offset * ((1:ℚ)/4) = offset * ((3:ℚ)/4) := by
    refine Vec2.ext2 _ _ ?_ ?_ <;> simp <;> ring
  refine objGet_double_set objs i j _ _ hij hlen_i hlen_j _ _ ?_ ?_
  · simp only [h14]
  · simp only [h14, hv]

theorem C4_witness :
    ∃ o1' o2', objGet c4objsAfter 0 = some o1' ∧ objGet c4objsAfter 1 = some o2' ∧
      o1'.pos = (⟨0, 0⟩ : Vec2) + (⟨-(1/2), 0⟩ : Vec2) * ((1:ℚ)/4) ∧
      o2'.pos = (⟨1/2, 0⟩ : Vec2) - (⟨-(1/2), 0⟩ : Vec2) * ((3:ℚ)/4) :=
  C4_mass_split c4objs 0 1
    { ty := .movable ⟨0, 0⟩ 1, pos := ⟨0, 0⟩, size := ⟨1, 1⟩
      surface_friction := 1, touching := [] }
    { ty := .movable ⟨0, 0⟩ 3, pos := ⟨1/2, 0⟩, size := ⟨1, 1⟩
      surface_friction := 1, touching := [] }
    ⟨0, 0⟩ ⟨0, 0⟩ ⟨-(1/2), 0⟩ c4objsAfter
    (by decide) rfl rfl rfl rfl (by decide) (by decide)

theorem refreshStep_congr (objs1 objs2 : List (Option Object)) (ps sz : Vec2)
    (k : Nat) (h : PosSizeEq objs1 objs2) :
    refreshStep objs1 ps sz k = refreshStep objs2 ps sz k := by
  have hk := h k
  rw [refreshStep, refreshStep]
  cases h1 : objGet objs1 k with
  | none =>
      rw [h1] at hk
      cases h2 : objGet objs2 k with
      | none => rfl
      | some o2 => rw [h2] at hk; simp at hk
  | some o1 =>
      rw [h1] at hk
      cases h2 : objGet objs2 k with
      | none => rw [h2] at hk; simp at hk
      | some o2 =>
          rw [h2] at hk
          simp only [Option.map_some', Option.some.injEq, psOf, Prod.mk.injEq] at hk
          simp only [hk.1, hk.2]

theorem refreshFold_congr (objs1 objs2 : List (Option Object)) (i : Nat)
    (ps sz : Vec2) (h : PosSizeEq objs1 objs2) :
    ∀ (l acc : List (Nat × Direction)),
      refreshFold objs1 i ps sz acc l = refreshFold objs2 i ps sz acc l := by
  intro l
  induction l with
  | nil => intro acc; rfl
  | cons p rest ih =>
      intro acc
      rw [refreshFold, refreshFold, refreshStep_congr objs1 objs2 ps sz p.1 h]
      by_cases hip : i = p.1
      · rw [if_pos hip, if_pos hip]
        exact ih acc
      · rw [if_neg hip, if_neg hip]
        cases refreshStep objs2 ps sz p.1 with
        | none => exact ih acc
        | some d => exact ih _

theorem refreshOne_length (objs : List (Option Object)) (i : Nat) :
    (refreshOne objs i).length = objs.length := by
  rw [refreshOne]
  cases h : objGet objs i with
  | none => rfl
  | some o => exact setObj_length _ _ _

theorem refreshOne_get_ne (objs : List (Option Object)) (i k : Nat)
    (h : k ≠ i) : objGet (refreshOne objs i) k = objGet objs k := by
  rw [refreshOne]
  cases ho : objGet objs i with
  | none => rfl
  | some o => exact objGet_set_ne _ _ _ _ h

theorem refreshOne_get_self (objs : List (Option Object)) (i : Nat) :
    objGet (refreshOne objs i) i = (objGet objs i).map (refreshObj objs i) := by
  rw [refreshOne]
  cases ho : objGet objs i with
  | none => exact ho
  | some o =>
      rw [objGet_set_self _ _ _ (objGet_some_lt _ _ _ ho)]
      rfl

theorem refreshOne_posSizeEq (objs : List (Option Object)) (i : Nat) :
    PosSizeEq (refreshOne objs i) objs := by
  intro k
  by_cases hk : k = i
  · subst hk
    rw [refreshOne_get_self]
    cases objGet objs k <;> rfl
  · rw [refreshOne_get_ne objs i k hk]

theorem refreshIndices_get :
    ∀ (L : List Nat), L.Nodup → ∀ (objs : List (Option Object)) (k : Nat),
      objGet (refreshIndices L objs) k =
        if k ∈ L then (objGet objs k).map (refreshObj objs k) else objGet objs k := by
  intro L
  induction L with
  | nil => intro _ objs k; simp [refreshIndices]
  | cons i rest ih =>
      intro hnd objs k
      rw [List.nodup_cons] at hnd
      rw [refreshIndices]
      have hrec := ih hnd.2 (refreshOne objs i) k
      by_cases hk : k ∈ i :: rest
      · rw [if_pos hk]
        rcases List.mem_cons.mp hk with rfl | hkr
        · rw [hrec, if_neg hnd.1, refreshOne_get_self]
        · have hne : k ≠ i := fun he => hnd.1 (he ▸ hkr)
          rw [hrec, if_pos hkr, refreshOne_get_ne objs i k hne]
          have hobj : ∀ o, refreshObj (refreshOne objs i) k o = refreshObj objs k o := by
            intro o
            rw [refreshObj, refreshObj, refreshTouch, refreshTouch,
              refreshFold_congr (refreshOne objs i) objs k o.pos o.size
                (refreshOne_posSizeEq objs i)]
          cases objGet objs k with
          | none => rfl
          | some o => rw [Option.map_some', Option.map_some', hobj o]
      · rw [if_neg hk]
        have hki : k ≠ i := fun he => hk (he ▸ List.mem_cons_self i rest)
        have hkr : k ∉ rest := fun hm => hk (List.mem_cons_of_mem _ hm)
        rw [hrec, if_neg hkr, refreshOne_get_ne objs i k hki]

theorem refreshIndices_length :
    ∀ (L : List Nat) (objs : List (Option Object)),
      (refreshIndices L objs).length = objs.length := by
  intro L
  induction L with
  | nil => intro objs; rfl
  | cons i rest ih =>
      intro objs
      rw [refreshIndices, ih, refreshOne_length]

theorem refresh_length (objs : List (Option Object)) :
    (check_whats_still_touching objs).length = objs.length :=
  refreshIndices_length _ _

theorem refresh_get (objs : List (Option Object)) (k : Nat) :
    objGet (check_whats_still_touching objs) k =
      (objGet objs k).map (refreshObj objs k) := by
  rw [check_whats_still_touching,
    refreshIndices_get _ (List.nodup_range _) objs k]
  by_cases hk : k ∈ List.range objs.length
  · rw [if_pos hk]
  · rw [if_neg hk]
    have h0 : objGet objs k = none := by
      rw [objGet, List.getD_eq_default]
      simpa [List.mem_range, Nat.not_lt] using hk
    rw [h0]
    rfl

theorem refresh_posSizeEq (objs : List (Option Object)) :
    PosSizeEq (check_whats_still_touching objs) objs := by
  intro k
  rw [refresh_get]
  cases objGet objs k <;> rfl

theorem refreshFold_mem (objs : List (Option Object)) (i : Nat) (ps sz : Vec2) :
    ∀ (l acc : List (Nat × Direction)) (q : Nat × Direction),
      q ∈ refreshFold objs i ps sz acc l →
      q ∈ acc ∨ (q.1 ≠ i ∧ refreshStep objs ps sz q.1 = some q.2) := by
  intro l
  induction l with
  | nil => intro acc q h; exact Or.inl h
  | cons p rest ih =>
      intro acc q h
      rw [refreshFold] at h
      by_cases hip : i = p.1
      · rw [if_pos hip] at h
        exact ih acc q h
      · rw [if_neg hip] at h
        cases hs : refreshStep objs ps sz p.1 with
        | none => rw [hs] at h; exact ih acc q h
        | some d =>
            rw [hs] at h
            rcases ih _ q h with hacc | hgood
            · rcases mapInsert_mem p.1 d acc q hacc with h1 | h1
              · exact Or.inl h1
              · right
                rw [h1]
                exact ⟨fun he => hip he.symm, hs⟩
            · exact Or.inr hgood

theorem refreshFold_nodupKeys (objs : List (Option Object)) (i : Nat)
    (ps sz : Vec2) :
    ∀ (l acc : List (Nat × Direction)), NodupKeys acc →
      NodupKeys (refreshFold objs i ps sz acc l) := by
  intro l
  induction l with
  | nil => intro acc h; exact h
  | cons p rest ih =>
      intro acc h
      rw [refreshFold]
      by_cases hip : i = p.1
      · rw [if_pos hip]
        exact ih acc h
      · rw [if_neg hip]
        cases refreshStep objs ps sz p.1 with
        | none => exact ih acc h
        | some d => exact ih _ (mapInsert_nodupKeys p.1 d acc h)

theorem refreshFold_fixed (objs : List (Option Object)) (i : Nat)
    (ps sz : Vec2) :
    ∀ (l acc : List (Nat × Direction)),
      (∀ p ∈ l, ∀ q ∈ acc, p.1 ≠ q.1) →
      NodupKeys l →
      (∀ p ∈ l, p.1 ≠ i ∧ refreshStep objs ps sz p.1 = some p.2) →
      refreshFold objs i ps sz acc l = acc ++ l := by
  intro l
  induction l with
  | nil => intro acc _ _ _; simp [refreshFold]
  | cons p rest ih =>
      intro acc hdisj hnd hl
      have hp := hl p (List.mem_cons_self _ _)
      rw [refreshFold, if_neg (fun he => hp.1 he.symm), hp.2]
      show refreshFold objs i ps sz (mapInsert p.1 p.2 acc) rest = acc ++ p :: rest
      rw [mapInsert_of_not_mem _ _ _
        (fun q hq => (hdisj p (List.mem_cons_self _ _) q hq).symm)]
      rw [NodupKeys, List.map_cons, List.nodup_cons] at hnd
      have hrec := ih (acc ++ [(p.1, p.2)]) ?_ hnd.2
        (fun q hq => hl q (List.mem_cons_of_mem _ hq))
      · rw [hrec]
        simp
      · intro p' hp' q hq
        rcases List.mem_append.mp hq with hq1 | hq1
        · exact hdisj p' (List.mem_cons_of_mem _ hp') q hq1
        · have : q = (p.1, p.2) := List.mem_singleton.mp hq1
          rw [this]
          intro he
          exact hnd.1 (he ▸ List.mem_map_of_mem Prod.fst hp')

theorem refreshTouch_refreshObj (objs : List (Option Object)) (k : Nat)
    (o : Object) :
    refreshTouch objs k (refreshObj objs k o) = refreshTouch objs k o := by
  rw [refreshObj, refreshTouch, refreshTouch]
  have hnd : NodupKeys (refreshFold objs k o.pos o.size [] o.touching) :=
    refreshFold_nodupKeys objs k o.pos o.size o.touching [] List.nodup_nil
  rw [refreshFold_fixed objs k o.pos o.size _ []
    (fun p _ q hq => absurd hq (List.not_mem_nil q)) hnd ?_]
  · simp [refreshTouch]
  · intro p hp
    rcases refreshFold_mem objs k o.pos o.size o.touching [] p hp with h | h
    · exact absurd h (List.not_mem_nil p)
    · exact h

theorem list_eq_of_objGet (l1 : List (Option Object)) :
    ∀ (l2 : List (Option Object)), l1.length = l2.length →
      (∀ k, objGet l1 k = objGet l2 k) → l1 = l2 := by
  induction l1 with
  | nil =>
      intro l2 hlen _
      cases l2 with
      | nil => rfl
      | cons b t => simp at hlen
  | cons a t1 ih =>
      intro l2 hlen h
      cases l2 with
      | nil => simp at hlen
      | cons b t2 =>
          have h0 : a = b := by simpa [objGet] using h 0
          subst h0
          have ht : t1 = t2 :=
            ih t2 (by simpa using hlen) (fun k => by simpa [objGet] using h (k + 1))
          rw [ht]

theorem refreshObj_idem (objs : List (Option Object)) (k : Nat) (o : Object) :
    refreshObj (check_whats_still_touching objs) k (refreshObj objs k o) =
      refreshObj objs k o := by
  have h1 : refreshTouch (check_whats_still_touching objs) k (refreshObj objs k o)
      = refreshTouch objs k (refreshObj objs k o) := by
    rw [refreshTouch, refreshTouch,
      refreshFold_congr (check_whats_still_touching objs) objs k _ _
        (refresh_posSizeEq objs)]
  rw [refreshObj, h1, refreshTouch_refreshObj, refreshObj]

/-- C9: the contact refresh is idempotent.  Running
`check_whats_still_touching` twice in a row, with no intervening change to
any entity, leaves the whole entity collection — in particular every
entity's `touching` map — exactly as after the first run. -/
theorem C9_refresh_idempotent (objs : List (Option Object)) :
    check_whats_still_touching (check_whats_still_touching objs) =
      check_whats_still_touching objs := by
  apply list_eq_of_objGet _ _ (by rw [refresh_length, refresh_length])
  intro k
  rw [refresh_get, refresh_get]
  cases objGet objs k with
  | none => rfl
  | some o =>
      simp only [Option.map_some']
      rw [refreshObj_idem]

theorem handle_collision_absent (objs : List (Option Object)) (i j : Nat)
    (h : objGet objs i = none ∨ objGet objs j = none) :
    handle_collision objs i j = some objs := by
  by_cases hij : i = j
  · rw [handle_collision, if_pos hij]
  · rw [handle_collision, if_neg hij]
    rcases h with h | h
    · rw [h]
    · rw [h]
      cases objGet objs i <;> rfl

theorem controller_update_absent (objs : List (Option Object)) (dt : ℚ)
    (c : PlayerController) (h : objGet objs c.controlled_object = none) :
    ∃ c', PlayerController.update objs dt c = some (c', objs) := by
  refine ⟨{ c with
      pending_events := []
      key_states := (drainEvents c.pending_events c.key_states false).1 }, ?_⟩
  rw [PlayerController.update, h]

theorem refreshStep_some_valid (objs : List (Option Object)) (ps sz : Vec2)
    (k : Nat) (d : Direction) (h : refreshStep objs ps sz k = some d) :
    ∃ ok, objGet objs k = some ok := by
  cases ho : objGet objs k with
  | none =>
      rw [refreshStep, ho] at h
      exact Option.noConfusion h
  | some ok => exact ⟨ok, rfl⟩

theorem refresh_touch_valid (objs : List (Option Object)) (i : Nat)
    (o' : Object) (h : objGet (check_whats_still_touching objs) i = some o') :
    ∀ q ∈ o'.touching, q.1 ≠ i ∧ ∃ ok, objGet objs q.1 = some ok := by
  intro q hq
  rw [refresh_get] at h
  cases ho : objGet objs i with
  | none => rw [ho] at h; exact Option.noConfusion h
  | some o =>
      rw [ho, Option.map_some', Option.some.injEq] at h
      rw [← h] at hq
      rcases refreshFold_mem objs i o.pos o.size o.touching [] q hq with h1 | h1
      · exact absurd h1 (List.not_mem_nil q)
      · exact ⟨h1.1, refreshStep_some_valid objs o.pos o.size q.1 q.2 h1.2⟩

/-- C7 (amended): the resolver and the contact refresh treat a stale or
out-of-range handle as an absence signal and a no-op — `handle_collision`
leaves the collection unchanged when either slot is vacant, and the refresh
only keeps contacts whose handle is a live slot — and a controller whose
controlled entity is absent is a no-op on the entity collection.  However,
the claim's blanket "no lookup panics, including handles stored in a
touching map" is false: the controller's average-touch-velocity loop
indexes touched handles directly and panics (modelled as `none`) on a stale
handle — see the counterexample. -/
theorem C7_stale_handles :
    (∀ (objs : List (Option Object)) (i j : Nat),
      objGet objs i = none ∨ objGet objs j = none →
      handle_collision objs i j = some objs) ∧
    (∀ (objs : List (Option Object)) (dt : ℚ) (c : PlayerController),
      objGet objs c.controlled_object = none →
      ∃ c', PlayerController.update objs dt c = some (c', objs)) ∧
    (∀ (objs : List (Option Object)) (i : Nat) (o' : Object),
      objGet (check_whats_still_touching objs) i = some o' →
      ∀ q ∈ o'.touching, ∃ ok, objGet objs q.1 = some ok) :=
  ⟨handle_collision_absent, controller_update_absent,
    fun objs i o' h q hq => (refresh_touch_valid objs i o' h q hq).2⟩

theorem C7_witness :
    handle_collision c7Objs 0 5 = some c7Objs ∧
    (∃ c', PlayerController.update c7Objs 0
      { pending_events := [], controlled_object := 9, key_states := []
        last_touch_velocity := ⟨0, 0⟩, top_speed := 10
        acceleration_speed := 60 } = some (c', c7Objs)) ∧
    (∃ ok, objGet c6Objs 1 = some ok) :=
  ⟨C7_stale_handles.1 c7Objs 0 5 (Or.inr rfl),
   C7_stale_handles.2.1 c7Objs 0 _ rfl,
   C7_stale_handles.2.2 c6Objs 0
     { ty := .movable ⟨1, 2⟩ 1, pos := ⟨0, 0⟩, size := ⟨1, 1⟩
       surface_friction := 1, touching := [(1, .down), (2, .right)] }
     (by decide) (1, Direction.down) (by decide)⟩

/-- C7 counterexample: a touching map holding the stale handle 5 makes the
controller's average-touch-velocity loop index a vacant slot: the modelled
panic (`none`) propagates out of `PlayerController::update` and out of
`GameState::update` — the lookup is not treated as an absence-signal no-op. -/
theorem C7_counterexample :
    PlayerController.update c7Objs 0 c7Ctrl = none ∧
    GameState.update 0 c7State = none := by
  exact ⟨by decide, by decide⟩

theorem avgLoop_glue (objs : List (Option Object)) (controlled : Nat)
    (e : Nat) (eo : Object) (heo : objGet objs e = some eo)
    (hef : eo.surface_friction = 0) :
    ∀ (l : List (Nat × Direction)) (w : ℚ) (sm : Vec2),
      e ∈ l.map Prod.fst →
      (∀ k ∈ l.map Prod.fst, k ≠ controlled ∧ (objGet objs k).isSome = true) →
      (∀ k ∈ l.map Prod.fst, k ≠ e →
        (objGet objs k).map Object.surface_friction ≠ some 0) →
      avgLoop objs controlled l w sm = some eo.get_velocity := by
  intro l
  induction l with
  | nil => intro w sm he _ _; simp at he
  | cons p rest ih =>
      intro w sm he hvalid huniq
      have hmem : p.1 ∈ (p :: rest).map Prod.fst := by simp
      obtain ⟨hpc, hsome⟩ := hvalid p.1 hmem
      obtain ⟨op, hop⟩ := Option.isSome_iff_exists.mp hsome
      simp only [avgLoop, hop]
      rw [if_neg hpc]
      by_cases hpe : p.1 = e
      · have hope : op = eo := by
          rw [hpe, heo] at hop
          injection hop with h
          exact h.symm
        rw [if_pos (by rw [hope, hef])]
        rw [hope]
      · have hfr : op.surface_friction ≠ 0 := by
          intro h0
          apply huniq p.1 hmem hpe
          rw [hop, Option.map_some', h0]
        rw [if_neg hfr]
        refine ih _ _ ?_ ?_ ?_
        · have he' := he
          rw [List.map_cons] at he'
          rcases List.mem_cons.mp he' with h1 | h1
          · exact absurd h1.symm hpe
          · exact h1
        · exact fun k hk => hvalid k (by simp [hk])
        · exact fun k hk hke => huniq k (by simp [hk]) hke

/-- C6: if the controlled `Movable` entity's touching map contains an
entity `e` with `surface_friction = 0` (every other touched handle carrying
non-zero friction, so that "that entity" is well defined independently of
hash order), and every touched handle is a live slot other than the
controlled one, then the controller's computed average touch velocity is
exactly entity `e`'s velocity — every other contact's contribution is
ignored — and it is stored as the new last touch velocity. -/
theorem C6_zero_friction_glue (objs : List (Option Object)) (dt : ℚ)
    (c : PlayerController) (obj : Object) (v : Vec2) (m : ℚ) (e : Nat)
    (eo : Object)
    (hobj : objGet objs c.controlled_object = some obj)
    (hty : obj.ty = ObjectType.movable v m)
    (he : e ∈ obj.touching.map Prod.fst)
    (heo : objGet objs e = some eo)
    (hef : eo.surface_friction = 0)
    (hvalid : ∀ k ∈ obj.touching.map Prod.fst,
      k ≠ c.controlled_object ∧ (objGet objs k).isSome = true)
    (huniq : ∀ k ∈ obj.touching.map Prod.fst, k ≠ e →
      (objGet objs k).map Object.surface_friction ≠ some 0) :
    ∃ c' objs', PlayerController.update objs dt c = some (c', objs') ∧
      c'.last_touch_velocity = eo.get_velocity := by
  have hne : obj.touching.isEmpty = false := by
    cases ht : obj.touching with
    | nil => rw [ht] at he; simp at he
    | cons a b => rfl
  have havg : averageTouchVelocity objs c.controlled_object obj.touching
      c.last_touch_velocity = some eo.get_velocity := by
    rw [averageTouchVelocity, hne]
    exact avgLoop_glue objs c.controlled_object e eo heo hef
      obj.touching 0 ⟨0, 0⟩ he hvalid huniq
  simp only [PlayerController.update, hobj, hty, havg]
  exact ⟨_, _, rfl, rfl⟩

theorem C6_witness :
    ∃ c' objs', PlayerController.update c6Objs (1/60) c6Ctrl = some (c', objs') ∧
      c'.last_touch_velocity = (⟨4, 0⟩ : Vec2) :=
  C6_zero_friction_glue c6Objs (1/60) c6Ctrl
    { ty := .movable ⟨1, 2⟩ 1, pos := ⟨0, 0⟩, size := ⟨1, 1⟩
      surface_friction := 1, touching := [(1, .down), (2, .down)] }
    ⟨1, 2⟩ 1 2
    { ty := .treadmill ⟨4, 0⟩, pos := ⟨1, -1⟩, size := ⟨1, 1⟩
      surface_friction := 0, touching := [] }
    rfl rfl (by decide) rfl rfl (by decide) (by decide)

@[simp] theorem touchset_can_be_pushed (o : Object) (t : List (Nat × Direction)) :
    ({ o with touching := t } : Object).can_be_pushed = o.can_be_pushed := rfl

@[simp] theorem touchset_pos (o : Object) (t : List (Nat × Direction)) :
    ({ o with touching := t } : Object).pos = o.pos := rfl

@[simp] theorem touchset_ty (o : Object) (t : List (Nat × Direction)) :
    ({ o with touching := t } : Object).ty = o.ty := rfl

theorem handle_collision_spec (objs : List (Option Object)) (i j : Nat)
    (objs' : List (Option Object)) (h : handle_collision objs i j = some objs') :
    objs' = objs ∨
    (i ≠ j ∧ ∃ o1 o2 d,
      objGet objs i = some o1 ∧ objGet objs j = some o2 ∧
      (∀ k, k ≠ i → k ≠ j → objGet objs' k = objGet objs k) ∧
      (objGet objs' i).map Object.touching
        = some (mapInsert j (Direction.invert d) o1.touching) ∧
      (o1.can_be_pushed = none →
        (objGet objs' i).map (fun o => (o.pos, o.ty)) = some (o1.pos, o1.ty)) ∧
      (objGet objs' j).map Object.touching
        = some (mapInsert i d o2.touching) ∧
      (o2.can_be_pushed = none →
        (objGet objs' j).map (fun o => (o.pos, o.ty)) = some (o2.pos, o2.ty))) := by
  by_cases hij : i = j
  · rw [handle_collision, if_pos hij] at h
    injection h with h'
    exact Or.inl h'.symm
  · rw [handle_collision, if_neg hij] at h
    cases h1 : objGet objs i with
    | none =>
        simp only [h1, Option.some.injEq] at h
        exact Or.inl h.symm
    | some o1 =>
        cases h2 : objGet objs j with
        | none =>
            simp only [h1, h2, Option.some.injEq] at h
            exact Or.inl h.symm
        | some o2 =>
            simp only [h1, h2, Option.some.injEq] at h
            by_cases hpush : (o1.can_be_pushed.isSome || o2.can_be_pushed.isSome) = true
            · rw [if_pos hpush] at h
              cases hc : check_collision o1.pos o1.size o2.pos o2.size with
              | none =>
                  simp only [hc, Option.some.injEq] at h
                  exact Or.inl h.symm
              | some offset =>
                  simp only [hc, reset_can_be_pushed, touchset_can_be_pushed] at h
                  have hi : i < objs.length := objGet_some_lt _ _ _ h1
                  have hj : j < objs.length := objGet_some_lt _ _ _ h2
                  cases hcb1 : o1.can_be_pushed with
                  | some m1 =>
                      cases hcb2 : o2.can_be_pushed with
                      | some m2 =>
                          simp only [hcb1, hcb2, Option.some.injEq] at h
                          subst h
                          refine Or.inr ⟨hij, o1, o2, Direction.from_vector offset,
                            rfl, rfl, ?_, ?_, ?_, ?_, ?_⟩
                          · intro k hki hkj
                            rw [objGet_set_ne _ _ _ _ hkj, objGet_set_ne _ _ _ _ hki]
                          · rw [objGet_set_ne _ j i _ hij,
                              objGet_set_self _ _ _ hi]
                            simp
                          · intro h0
                            rw [hcb1] at h0
                            exact Option.noConfusion h0
                          · rw [objGet_set_self _ _ _ (by rw [setObj_length]; exact hj)]
                            simp
                          · intro h0
                            rw [hcb2] at h0
                            exact Option.noConfusion h0
                      | none =>
                          simp only [hcb1, hcb2, Option.some.injEq] at h
                          subst h
                          refine Or.inr ⟨hij, o1, o2, Direction.from_vector offset,
                            rfl, rfl, ?_, ?_, ?_, ?_, ?_⟩
                          · intro k hki hkj
                            rw [objGet_set_ne _ _ _ _ hkj, objGet_set_ne _ _ _ _ hki]
                          · rw [objGet_set_ne _ j i _ hij,
                              objGet_set_self _ _ _ hi]
                            simp
                          · intro h0
                            rw [hcb1] at h0
                            exact Option.noConfusion h0
                          · rw [objGet_set_self _ _ _ (by rw [setObj_length]; exact hj)]
                            rw [non_movable_reset _ _ (by simpa using hcb2)]
                            simp
                          · intro _
                            rw [objGet_set_self _ _ _ (by rw [setObj_length]; exact hj)]
                            rw [non_movable_reset _ _ (by simpa using hcb2)]
                            simp
                  | none =>
                      cases hcb2 : o2.can_be_pushed with
                      | some m2 =>
                          simp only [hcb1, hcb2, Option.some.injEq] at h
                          subst h
                          refine Or.inr ⟨hij, o1, o2, Direction.from_vector offset,
                            rfl, rfl, ?_, ?_, ?_, ?_, ?_⟩
                          · intro k hki hkj
                            rw [objGet_set_ne _ _ _ _ hkj, objGet_set_ne _ _ _ _ hki]
                          · rw [objGet_set_ne _ j i _ hij,
                              objGet_set_self _ _ _ hi]
                            rw [non_movable_reset _ _ (by simpa using hcb1)]
                            simp
                          · intro _
                            rw [objGet_set_ne _ j i _ hij,
                              objGet_set_self _ _ _ hi]
                            rw [non_movable_reset _ _ (by simpa using hcb1)]
                            simp
                          · rw [objGet_set_self _ _ _ (by rw [setObj_length]; exact hj)]
                            simp
                          · intro h0
                            rw [hcb2] at h0
                            exact Option.noConfusion h0
                      | none =>
                          simp only [hcb1, hcb2] at h
                          exact Option.noConfusion h
            · rw [if_neg hpush] at h
              injection h with h'
              exact Or.inl h'.symm

@[simp] theorem integrateObj_touching (dt : ℚ) (o : Object) :
    (integrateObj dt o).touching = o.touching := by
  rcases o with ⟨ty, pos, size, f, t⟩
  cases ty <;> simp [integrateObj]

@[simp] theorem integrateObj_can_be_pushed (dt : ℚ) (o : Object) :
    (integrateObj dt o).can_be_pushed = o.can_be_pushed := by
  rcases o with ⟨ty, pos, size, f, t⟩
  cases ty <;> simp [integrateObj, Object.can_be_pushed]

theorem integrate_get (dt : ℚ) (objs : List (Option Object)) (k : Nat) :
    objGet (integrate dt objs) k = (objGet objs k).map (integrateObj dt) :=
  objGet_map _ objs k

theorem can_be_pushed_of_ty (o o' : Object) (h : o.ty = o'.ty) :
    o.can_be_pushed = o'.can_be_pushed := by
  rw [Object.can_be_pushed, Object.can_be_pushed, h]

theorem controller_step_pointwise (objs : List (Option Object)) (dt : ℚ)
    (c c' : PlayerController) (objs' : List (Option Object))
    (h : PlayerController.update objs dt c = some (c', objs')) (k : Nat) :
    objGet objs' k = objGet objs k ∨
    ∃ obj v m v', objGet objs k = some obj ∧ obj.ty = ObjectType.movable v m ∧
      objGet objs' k = some { obj with ty := ObjectType.movable v' m } := by
  rw [PlayerController.update] at h
  cases ho : objGet objs c.controlled_object with
  | none =>
      simp only [ho, Option.some.injEq, Prod.mk.injEq] at h
      rw [← h.2]
      exact Or.inl rfl
  | some obj =>
      cases hty : obj.ty with
      | movable v m =>
          simp only [ho, hty] at h
          cases havg : averageTouchVelocity objs c.controlled_object obj.touching
              c.last_touch_velocity with
          | none =>
              simp only [havg] at h
              exact Option.noConfusion h
          | some avg =>
              simp only [havg, Option.some.injEq, Prod.mk.injEq] at h
              rw [← h.2]
              by_cases hk : k = c.controlled_object
              · subst hk
                right
                exact ⟨obj, v, m, _, ho, hty,
                  objGet_set_self _ _ _ (objGet_some_lt _ _ _ ho)⟩
              · exact Or.inl (objGet_set_ne _ _ _ _ hk)
      | static =>
          simp only [ho, hty, Option.some.injEq, Prod.mk.injEq] at h
          rw [← h.2]
          exact Or.inl rfl
      | treadmill fv =>
          simp only [ho, hty, Option.some.injEq, Prod.mk.injEq] at h
          rw [← h.2]
          exact Or.inl rfl

theorem runControllersAux_pointwise (dt : ℚ) :
    ∀ (cs : List PlayerController) (objs : List (Option Object))
      (cs' : List PlayerController) (objs' : List (Option Object)),
      runControllersAux dt cs objs = some (cs', objs') → ∀ k,
      objGet objs' k = objGet objs k ∨
      ∃ obj v m v', objGet objs k = some obj ∧ obj.ty = ObjectType.movable v m ∧
        objGet objs' k = some { obj with ty := ObjectType.movable v' m } := by
  intro cs
  induction cs with
  | nil =>
      intro objs cs' objs' h k
      simp only [runControllersAux, Option.some.injEq, Prod.mk.injEq] at h
      rw [← h.2]
      exact Or.inl rfl
  | cons c rest ih =>
      intro objs cs' objs' h k
      rw [runControllersAux] at h
      cases h1 : PlayerController.update objs dt c with
      | none => rw [h1] at h; exact Option.noConfusion h
      | some p =>
          obtain ⟨c1, objs1⟩ := p
          rw [h1] at h
          cases h2 : runControllersAux dt rest objs1 with
          | none =>
              simp only [h2] at h
              exact Option.noConfusion h
          | some q =>
              obtain ⟨cs1, objs2⟩ := q
              simp only [h2, Option.some.injEq, Prod.mk.injEq] at h
              rw [← h.2]
              rcases ih objs1 cs1 objs2 h2 k with hB | ⟨obj1, v1, m1, v1', hB1, hB2, hB3⟩
              · rw [hB]
                exact controller_step_pointwise objs dt c c1 objs1 h1 k
              · rcases controller_step_pointwise objs dt c c1 objs1 h1 k with
                  hA | ⟨obj, v, m, v', hA1, hA2, hA3⟩
                · rw [hA] at hB1
                  exact Or.inr ⟨obj1, v1, m1, v1', hB1, hB2, hB3⟩
                · right
                  rw [hA3] at hB1
                  injection hB1 with hobj
                  subst hobj
                  have hB2' : ObjectType.movable v' m = ObjectType.movable v1 m1 := hB2
                  injection hB2' with hv hm
                  refine ⟨obj, v, m, v1', hA1, hA2, ?_⟩
                  rw [hm]
                  exact hB3

theorem collisionFold_preserve (P : List (Option Object) → Prop)
    (hstep : ∀ objs i j objs', P objs → handle_collision objs i j = some objs' →
      P objs') :
    ∀ (pairs : List (Nat × Nat)) (objs objs' : List (Option Object)),
      P objs → collisionFold pairs objs = some objs' → P objs' := by
  intro pairs
  induction pairs with
  | nil =>
      intro objs objs' hP h
      simp only [collisionFold, Option.some.injEq] at h
      rw [← h]
      exact hP
  | cons p rest ih =>
      intro objs objs' hP h
      rw [collisionFold] at h
      cases h1 : handle_collision objs p.1 p.2 with
      | none =>
          rw [h1] at h
          exact Option.noConfusion h
      | some objs1 =>
          rw [h1] at h
          exact ih objs1 objs' (hstep _ _ _ _ hP h1) h

theorem update_spec (dt : ℚ) (s s' : GameState)
    (h : GameState.update dt s = some s') :
    ∃ cs' objs1 objs4,
      runControllersAux dt s.controllers s.objects = some (cs', objs1) ∧
      collision_detection (check_whats_still_touching (integrate dt objs1))
        = some objs4 ∧
      s' = { s with controllers := cs', objects := objs4 } := by
  rw [GameState.update] at h
  cases h1 : runControllersAux dt s.controllers s.objects with
  | none =>
      rw [h1] at h
      exact Option.noConfusion h
  | some p =>
      obtain ⟨cs', objs1⟩ := p
      simp only [h1] at h
      cases h2 : collision_detection (check_whats_still_touching (integrate dt objs1)) with
      | none =>
          simp only [h2] at h
          exact Option.noConfusion h
      | some objs4 =>
          simp only [h2, Option.some.injEq] at h
          exact ⟨cs', objs1, objs4, rfl, h2, h.symm⟩


/-- C8: `Static` and `Treadmill` entities are immobile and receive no
velocity: `apply_push` and `reset_velocity_components` are no-ops on
non-`Movable` entities (those with no pushable mass), the gravity/position
integration step is the identity on them, and across any whole call of
`GameState::update` a non-pushable entity's position and body variant
(including a Treadmill's `fake_velocity`) are unchanged. -/
theorem C8_static_entities_immobile :
    (∀ (o : Object) (p : Vec2), o.can_be_pushed = none → o.apply_push p = o) ∧
    (∀ (o : Object) (b : Bool × Bool), o.can_be_pushed = none →
      o.reset_velocity_components b = o) ∧
    (∀ (dt : ℚ) (o : Object), o.can_be_pushed = none → integrateObj dt o = o) ∧
    (∀ (dt : ℚ) (s s' : GameState), GameState.update dt s = some s' →
      ∀ (i : Nat) (o : Object), objGet s.objects i = some o →
        o.can_be_pushed = none →
        ∃ o', objGet s'.objects i = some o' ∧ o'.pos = o.pos ∧ o'.ty = o.ty) := by
  refine ⟨fun o p h => non_movable_apply_push o p h,
    fun o b h => non_movable_reset o b h,
    fun dt o h => non_movable_integrate dt o h,
    fun dt s s' hup i o hget hpush => ?_⟩
  obtain ⟨cs', objs1, objs4, h1, h2, hs'⟩ := update_spec dt s s' hup
  have hstep1 : objGet objs1 i = some o := by
    rcases runControllersAux_pointwise dt s.controllers s.objects cs' objs1 h1 i with
      hA | ⟨obj, v, m, v', hA1, hA2, hA3⟩
    · rw [hA, hget]
    · rw [hget] at hA1
      injection hA1 with hobj
      subst hobj
      exfalso
      rw [Object.can_be_pushed, hA2] at hpush
      exact Option.noConfusion hpush
  have hstep2 : objGet (integrate dt objs1) i = some o := by
    rw [integrate_get, hstep1, Option.map_some', non_movable_integrate dt o hpush]
  have hstep3 : objGet (check_whats_still_touching (integrate dt objs1)) i
      = some (refreshObj (integrate dt objs1) i o) := by
    rw [refresh_get, hstep2, Option.map_some']
  have hP0 : ∃ o', objGet (check_whats_still_touching (integrate dt objs1)) i
      = some o' ∧ o'.pos = o.pos ∧ o'.ty = o.ty := ⟨_, hstep3, rfl, rfl⟩
  rw [collision_detection] at h2
  have hstep4 := collisionFold_preserve
    (fun objs => ∃ o', objGet objs i = some o' ∧ o'.pos = o.pos ∧ o'.ty = o.ty)
    ?_ _ _ _ hP0 h2
  · rw [hs']
    exact hstep4
  · intro objs a b objs'' hPp hhc
    obtain ⟨o', hgo, hpos, hty⟩ := hPp
    rcases handle_collision_spec objs a b objs'' hhc with
      heq | ⟨hab, o1, o2, d, hg1, hg2, hother, hti, hpi, htj, hpj⟩
    · rw [heq]
      exact ⟨o', hgo, hpos, hty⟩
    · by_cases hia : i = a
      · subst hia
        rw [hgo] at hg1
        injection hg1 with ho1
        subst ho1
        have hcbp : o'.can_be_pushed = none := by
          rw [can_be_pushed_of_ty o' o hty]
          exact hpush
        have hmap := hpi hcbp
        cases hgo'' : objGet objs'' i with
        | none =>
            rw [hgo''] at hmap
            exact absurd hmap (by simp)
        | some o'' =>
            rw [hgo''] at hmap
            simp only [Option.map_some', Option.some.injEq, Prod.mk.injEq] at hmap
            exact ⟨o'', rfl, by rw [hmap.1, hpos], by rw [hmap.2, hty]⟩
      · by_cases hib : i = b
        · subst hib
          rw [hgo] at hg2
          injection hg2 with ho2
          subst ho2
          have hcbp : o'.can_be_pushed = none := by
            rw [can_be_pushed_of_ty o' o hty]
            exact hpush
          have hmap := hpj hcbp
          cases hgo'' : objGet objs'' i with
          | none =>
              rw [hgo''] at hmap
              exact absurd hmap (by simp)
          | some o'' =>
              rw [hgo''] at hmap
              simp only [Option.map_some', Option.some.injEq, Prod.mk.injEq] at hmap
              exact ⟨o'', rfl, by rw [hmap.1, hpos], by rw [hmap.2, hty]⟩
        · rw [hother i hia hib]
          exact ⟨o', hgo, hpos, hty⟩

theorem C8_witness :
    ∃ o', objGet c8State.objects 0 = some o' ∧
      o'.pos = (⟨2, 3⟩ : Vec2) ∧ o'.ty = ObjectType.static :=
  C8_static_entities_immobile.2.2.2 0 c8State c8State (by decide) 0
    { ty := .static, pos := ⟨2, 3⟩, size := ⟨4, 1⟩
      surface_friction := 1, touching := [] }
    rfl rfl

theorem selfFree_handle_collision (objs : List (Option Object)) (i j : Nat)
    (objs' : List (Option Object)) (h : handle_collision objs i j = some objs')
    (hSF : SelfFree objs) : SelfFree objs' := by
  rcases handle_collision_spec objs i j objs' h with
    heq | ⟨hij, o1, o2, d, hg1, hg2, hother, hti, _, htj, _⟩
  · rw [heq]
    exact hSF
  · intro k o' hgo' d' hmem
    by_cases hki : k = i
    · subst hki
      rw [hgo'] at hti
      simp only [Option.map_some', Option.some.injEq] at hti
      rw [hti] at hmem
      rcases mapInsert_mem _ _ _ _ hmem with h1 | h1
      · exact hSF k o1 hg1 d' h1
      · exact hij (congrArg Prod.fst h1)
    · by_cases hkj : k = j
      · subst hkj
        rw [hgo'] at htj
        simp only [Option.map_some', Option.some.injEq] at htj
        rw [htj] at hmem
        rcases mapInsert_mem _ _ _ _ hmem with h1 | h1
        · exact hSF k o2 hg2 d' h1
        · exact hij (congrArg Prod.fst h1).symm
      · rw [hother k hki hkj] at hgo'
        exact hSF k o' hgo' d' hmem

theorem selfFree_refresh (objs : List (Option Object)) :
    SelfFree (check_whats_still_touching objs) := by
  intro k o' hgo' d hmem
  rw [refresh_get] at hgo'
  cases ho : objGet objs k with
  | none =>
      rw [ho] at hgo'
      exact Option.noConfusion hgo'
  | some o =>
      rw [ho, Option.map_some'] at hgo'
      injection hgo' with h'
      rw [← h'] at hmem
      rcases refreshFold_mem objs k o.pos o.size o.touching [] (k, d) hmem with
        h1 | h1
      · exact List.not_mem_nil _ h1
      · exact h1.1 rfl

theorem selfFree_update (dt : ℚ) (s s' : GameState)
    (h : GameState.update dt s = some s') : SelfFree s'.objects := by
  obtain ⟨cs', objs1, objs4, h1, h2, hs'⟩ := update_spec dt s s' h
  rw [collision_detection] at h2
  have h4 := collisionFold_preserve SelfFree
    (fun o a b o' hP hh => selfFree_handle_collision o a b o' hh hP)
    _ _ _ (selfFree_refresh (integrate dt objs1)) h2
  rw [hs']
  exact h4

theorem selfFree_new : SelfFree GameState.new.objects := by
  intro i o hget d hmem
  rcases i with _ | _ | _ | _ | n
  · injection hget with h'
    rw [← h'] at hmem
    simp at hmem
  · injection hget with h'
    rw [← h'] at hmem
    simp at hmem
  · injection hget with h'
    rw [← h'] at hmem
    simp at hmem
  · injection hget with h'
    rw [← h'] at hmem
    simp at hmem
  · simp [GameState.new, objGet] at hget

theorem selfFree_runCallsFrom :
    ∀ (calls : List Call) (s0 s : GameState), SelfFree s0.objects →
      runCallsFrom s0 calls = some s → SelfFree s.objects := by
  intro calls
  induction calls with
  | nil =>
      intro s0 s h0 h
      simp only [runCallsFrom, Option.some.injEq] at h
      rw [← h]
      exact h0
  | cons c rest ih =>
      intro s0 s h0 h
      rw [runCallsFrom] at h
      cases h1 : applyCall s0 c with
      | none =>
          rw [h1] at h
          exact Option.noConfusion h
      | some s1 =>
          rw [h1] at h
          refine ih s1 s ?_ h
          cases c with
          | upd dt => exact selfFree_update dt s0 s1 h1
          | submit e =>
              simp only [applyCall, Option.some.injEq] at h1
              rw [← h1]
              exact h0

/-- C10: starting from `GameState::new`, after any sequence of `update` and
`submit_player_event` calls (each `update` modelled as `some` when it
completes without a panic), no entity's `touching` map contains its own
handle: the resolver inserts contacts only for distinct slot pairs and the
refresh skips self-entries. -/
theorem C10_no_self_contact (calls : List Call) (s : GameState)
    (h : runCalls calls = some s) :
    ∀ (i : Nat) (o : Object), objGet s.objects i = some o →
      ∀ d, (i, d) ∉ o.touching :=
  selfFree_runCallsFrom calls GameState.new s selfFree_new h

theorem C10_witness : (0, Direction.down) ∉ c10Player.touching :=
  C10_no_self_contact c10Calls c10State (by decide) 0 c10Player (by decide)
    Direction.down
